import Mathlib

/-!
Verification development for the RunPod serverless adapter (src/handler.py).

The adapter resolves a PDF input (local path, URL download, or base64
payload), invokes an external OCR pipeline as a child process, collects the
pipeline's artifacts into a structured response, and cleans up the temporary
files it created.

The embedding is a shallow one: the filesystem is an explicit state value
(an association list of paths to file data plus a set of directories and a
counter for fresh temporary names), the network and the external pipeline
process are parameters of the environment, and Python exceptions become an
explicit error-carrying outcome type.  Standard-library behaviour used by the
source (base64 codec, strict UTF-8 codec, pathlib name manipulation) is
modelled by executable Lean functions below.
-/

set_option linter.unusedVariables false

/-- Byte strings are lists of naturals; a well-formed byte is below 256. -/
abbrev Bytes := List Nat

/-! ## String utilities (pathlib / str helpers used by the source) -/

/-- Model of Python's os.path basename: the part after the last slash. -/
def basename (p : String) : String :=
  String.mk ((p.toList.reverse.takeWhile (fun c => c != '/')).reverse)

/-- Model of pathlib's stem: the file name without its final extension. -/
def pathStem (name : String) : String :=
  let rev := name.toList.reverse
  let ext := rev.takeWhile (fun c => c != '.')
  if ext.length + 1 < rev.length then String.mk ((rev.drop (ext.length + 1)).reverse)
  else name

/-- ASCII lowering of every character, modelling str.lower on ASCII names. -/
def lowerStr (s : String) : String := String.mk (s.toList.map Char.toLower)

/-- Model of str.endswith. -/
def endsWithStr (s suf : String) : Bool :=
  s.toList.drop (s.toList.length - suf.toList.length) == suf.toList

/-- Model of Python string slicing s[:-n]: drop the final n characters. -/
def dropRightStr (s : String) (n : Nat) : String :=
  String.mk (s.toList.take (s.toList.length - n))

/-- Strip a prefix from a character list, returning the remainder on match. -/
def stripPre : List Char → List Char → Option (List Char)
  | [], p => some p
  | _ :: _, [] => none
  | a :: pre, b :: p => if a = b then stripPre pre p else none

/-- Strip a string prefix, returning the remainder when it matches. -/
def stripPrefixStr (pre p : String) : Option String :=
  (stripPre pre.toList p.toList).map String.mk

/-! ## Base64 codec (model of Python's base64.b64encode / b64decode) -/

/-- Index of a character in the standard base64 alphabet, none if absent. -/
def b64Index (c : Char) : Option Nat :=
  let n := c.toNat
  if 65 ≤ n ∧ n ≤ 90 then some (n - 65)
  else if 97 ≤ n ∧ n ≤ 122 then some (n - 97 + 26)
  else if 48 ≤ n ∧ n ≤ 57 then some (n - 48 + 52)
  else if n = 43 then some 62
  else if n = 47 then some 63
  else none

/-- Character for a 6-bit value in the standard base64 alphabet. -/
def b64Chr (i : Nat) : Char :=
  if i < 26 then Char.ofNat (65 + i)
  else if i < 52 then Char.ofNat (97 + (i - 26))
  else if i < 62 then Char.ofNat (48 + (i - 52))
  else if i = 62 then Char.ofNat 43
  else Char.ofNat 47

/-- Standard base64 encoding of a byte string, three bytes per four chars. -/
def b64encodeChars : Bytes → List Char
  | [] => []
  | [x] => [b64Chr (x / 4), b64Chr ((x % 4) * 16), '=', '=']
  | [x, y] => [b64Chr (x / 4), b64Chr ((x % 4) * 16 + y / 16), b64Chr ((y % 16) * 4), '=']
  | x :: y :: z :: rest =>
    b64Chr (x / 4) :: b64Chr ((x % 4) * 16 + y / 16) ::
      b64Chr ((y % 16) * 4 + z / 64) :: b64Chr (z % 64) :: b64encodeChars rest

/-- Standard base64 decoding over alphabet characters, strict on padding. -/
def b64decodeChars : List Char → Option Bytes
  | [] => some []
  | a :: b :: c :: d :: rest =>
    if rest.isEmpty ∧ c = '=' ∧ d = '=' then
      match b64Index a, b64Index b with
      | some i, some j => some [i * 4 + j / 16]
      | _, _ => none
    else if rest.isEmpty ∧ d = '=' then
      match b64Index a, b64Index b, b64Index c with
      | some i, some j, some k => some [i * 4 + j / 16, (j % 16) * 16 + k / 4]
      | _, _, _ => none
    else
      match b64Index a, b64Index b, b64Index c, b64Index d, b64decodeChars rest with
      | some i, some j, some k, some l, some tl =>
        some ((i * 4 + j / 16) :: ((j % 16) * 16 + k / 4) :: ((k % 4) * 64 + l) :: tl)
      | _, _, _, _, _ => none
  | _ => none

/-- Model of base64.b64encode(..).decode("utf-8"): an ASCII string. -/
def pyB64Encode (bs : Bytes) : String := String.mk (b64encodeChars bs)

/-- Model of base64.b64decode with default validation: characters outside
the alphabet (other than padding) are discarded, then strict quad decoding
applies; none models the binascii error on malformed input. -/
def pyB64Decode (s : String) : Option Bytes :=
  b64decodeChars (s.toList.filter (fun c => (b64Index c).isSome || c == '='))

/-! ## Strict UTF-8 codec (model of bytes.decode("utf-8") and encoding) -/

/-- Encoding of one unicode scalar value as UTF-8 bytes. -/
def utf8EncodeChar (c : Nat) : List Nat :=
  if c < 128 then [c]
  else if c < 2048 then [192 + c / 64, 128 + c % 64]
  else if c < 65536 then [224 + c / 4096, 128 + (c / 64) % 64, 128 + c % 64]
  else [240 + c / 262144, 128 + (c / 4096) % 64, 128 + (c / 64) % 64, 128 + c % 64]

/-- Encoding of a list of unicode scalar values as UTF-8 bytes. -/
def utf8Encode : List Nat → List Nat
  | [] => []
  | c :: cs => utf8EncodeChar c ++ utf8Encode cs

/-- Fuelled strict UTF-8 decoder: rejects truncated sequences, stray or
missing continuation bytes, overlong forms, surrogates and values beyond
U+10FFFF, exactly as Python's strict "utf-8" codec does. -/
def utf8DecodeF : Nat → List Nat → Option (List Nat)
  | _, [] => some []
  | 0, _ :: _ => none
  | fuel + 1, b0 :: t =>
    if b0 < 128 then
      match utf8DecodeF fuel t with
      | some cs => some (b0 :: cs)
      | none => none
    else if 194 ≤ b0 ∧ b0 ≤ 223 then
      match t with
      | b1 :: t1 =>
        if 128 ≤ b1 ∧ b1 ≤ 191 then
          match utf8DecodeF fuel t1 with
          | some cs => some (((b0 - 192) * 64 + (b1 - 128)) :: cs)
          | none => none
        else none
      | [] => none
    else if 224 ≤ b0 ∧ b0 ≤ 239 then
      match t with
      | b1 :: b2 :: t2 =>
        if (128 ≤ b1 ∧ b1 ≤ 191) ∧ (128 ≤ b2 ∧ b2 ≤ 191)
            ∧ (b0 = 224 → 160 ≤ b1) ∧ (b0 = 237 → b1 ≤ 159) then
          match utf8DecodeF fuel t2 with
          | some cs => some (((b0 - 224) * 4096 + (b1 - 128) * 64 + (b2 - 128)) :: cs)
          | none => none
        else none
      | _ => none
    else if 240 ≤ b0 ∧ b0 ≤ 244 then
      match t with
      | b1 :: b2 :: b3 :: t3 =>
        if (128 ≤ b1 ∧ b1 ≤ 191) ∧ (128 ≤ b2 ∧ b2 ≤ 191) ∧ (128 ≤ b3 ∧ b3 ≤ 191)
            ∧ (b0 = 240 → 144 ≤ b1) ∧ (b0 = 244 → b1 ≤ 143) then
          match utf8DecodeF fuel t3 with
          | some cs =>
            some (((b0 - 240) * 262144 + (b1 - 128) * 4096 + (b2 - 128) * 64 + (b3 - 128)) :: cs)
          | none => none
        else none
      | _ => none
    else none

/-- Strict UTF-8 decoding of a byte string to unicode scalar values. -/
def utf8Decode (bs : List Nat) : Option (List Nat) := utf8DecodeF bs.length bs

/-! ## Filesystem model -/

/-- Stand-in byte rendering of a zip container, used only where a theorem
never inspects it; archives are kept symbolic as their entry list. -/
def zipSerialize (es : List (String × Bytes)) : Bytes :=
  es.foldr (fun e acc => e.1.toList.map Char.toNat ++ e.2 ++ acc) []

/-- Contents of a regular file: raw bytes, or a zip archive kept symbolic. -/
inductive FData where
  | bytes (bs : Bytes)
  | zip (entries : List (String × Bytes))
deriving DecidableEq

/-- Raw bytes of a file's contents. -/
def FData.toBytes : FData → Bytes
  | .bytes bs => bs
  | .zip es => zipSerialize es

/-- Filesystem state: named regular files, created directories, and a
counter supplying fresh names for tempfile.mkstemp. -/
structure FS where
  files : List (String × FData)
  dirs : List String
  tmpCounter : Nat
deriving DecidableEq

/-- Contents of the regular file at a path, none when absent. -/
def FS.getFile (fs : FS) (p : String) : Option FData :=
  (fs.files.find? (fun e => e.1 == p)).map Prod.snd

/-- Whether a regular file exists at the path (Path.is_file). -/
def FS.isFile (fs : FS) (p : String) : Bool := (fs.getFile p).isSome

/-- Whether a directory exists at the path (Path.is_dir): either created
explicitly or implied by a file living strictly below it. -/
def FS.isDir (fs : FS) (p : String) : Bool :=
  fs.dirs.contains p || fs.files.any (fun e => (stripPrefixStr (p ++ "/") e.1).isSome)

/-- Whether anything exists at the path (Path.exists). -/
def FS.pathExists (fs : FS) (p : String) : Bool := fs.isFile p || fs.isDir p

/-- Write (create or overwrite) a regular file. -/
def FS.writeFile (fs : FS) (p : String) (d : FData) : FS :=
  { fs with files := (p, d) :: fs.files.filter (fun e => !(e.1 == p)) }

/-- Remove the regular file at a path (Path.unlink). -/
def FS.unlink (fs : FS) (p : String) : FS :=
  { fs with files := fs.files.filter (fun e => !(e.1 == p)) }

/-- Remove a directory tree (shutil.rmtree). -/
def FS.rmtree (fs : FS) (p : String) : FS :=
  { fs with
    files := fs.files.filter (fun e => !(stripPrefixStr (p ++ "/") e.1).isSome),
    dirs := fs.dirs.filter (fun d => !(d == p) && !(stripPrefixStr (p ++ "/") d).isSome) }

/-- Create a directory, idempotently (mkdir parents exist_ok). -/
def FS.mkdirp (fs : FS) (p : String) : FS :=
  if fs.dirs.contains p then fs else { fs with dirs := p :: fs.dirs }

/-- Model of tempfile.mkstemp: create a fresh empty file and return its
path; freshness is supplied by the temp counter. -/
def FS.mkstemp (fs : FS) (suffix : String) : String × FS :=
  let p := "/tmp/runpod" ++ toString fs.tmpCounter ++ suffix
  (p, { fs with files := (p, FData.bytes []) :: fs.files, tmpCounter := fs.tmpCounter + 1 })

/-- Raw bytes of the file at a path, defaulting to empty when absent. -/
def FS.readBytes (fs : FS) (p : String) : Bytes :=
  ((fs.getFile p).map FData.toBytes).getD []

/-! ## Effect environment and outcome type -/

/-- Errors raised by the adapter: HandlerError for missing or bad inputs,
the requests error for failed downloads, the binascii error for malformed
base64, and UnicodeDecodeError from artifact collection. -/
inductive Err where
  | input
  | network
  | decode
  | unicodeDecode
deriving DecidableEq

/-- Result of a computation together with the filesystem state it left
behind, whether it returned normally or raised. -/
inductive Outcome (α : Type) where
  | ok (a : α) (fs : FS)
  | err (e : Err) (fs : FS)
deriving DecidableEq

/-- Captured result of the child process (subprocess.CompletedProcess). -/
structure ProcResult where
  returncode : Int
  stdout : String
  stderr : String
deriving DecidableEq

/-- Behaviour of the external OCR pipeline process for this job, per the
external pipeline contract: an exit code, captured output streams, and the
files it writes (named relative to the supplied output directory). -/
structure PipeSpec where
  returncode : Int
  stdout : String
  stderr : String
  writes : List (String × Bytes)

/-- Ambient environment of one handler call: configuration constants, the
network (none models any download failure), and the pipeline process. -/
structure Env where
  defaultOutputDir : String
  home : String
  scriptPath : String
  net : String → Option Bytes
  pipe : PipeSpec

/-- Recognised keys of job input; an absent optional models an absent key. -/
structure JobInput where
  pdf_path : Option String := none
  pdf_url : Option String := none
  pdf_base64 : Option String := none
  prompt : Option String := none
  output_dir : Option String := none

/-- The serverless event, carrying the job input mapping. -/
structure Event where
  input : JobInput

/-- Values appearing in the structured response: strings, decoded text
(as unicode scalar values), and integers. -/
inductive Value where
  | str (s : String)
  | text (codepoints : List Nat)
  | int (n : Int)
deriving DecidableEq

/-- Model of str.strip: remove leading and trailing whitespace. -/
def trimStr (s : String) : String :=
  String.mk (((s.toList.dropWhile Char.isWhitespace).reverse.dropWhile Char.isWhitespace).reverse)

/-- Model of os.path.expanduser for the calling user's home. -/
def expanduser (home p : String) : String :=
  if p = "~" then home
  else match p.toList with
    | '~' :: '/' :: rest => home ++ String.mk ('/' :: rest)
    | _ => p

/-! ## The adapter, translated function by function from src/handler.py -/

/-- Translation of _download_to_file: fetch the URL (raising on failure),
then persist the body to a fresh temporary file. -/
def _download_to_file (env : Env) (url : String) (fs : FS) : Outcome String :=
  match env.net url with
  | none => Outcome.err Err.network fs
  | some content =>
    let r := fs.mkstemp ".pdf"
    Outcome.ok r.1 (FS.writeFile r.2 r.1 (FData.bytes content))

/-- Translation of _write_base64_file: mkstemp creates the temporary file
first, then the payload is decoded (raising on malformed base64) and the
decoded bytes are written. -/
def _write_base64_file (encoded : String) (fs : FS) : Outcome String :=
  let r := fs.mkstemp ".pdf"
  match pyB64Decode encoded with
  | none => Outcome.err Err.decode r.2
  | some bs => Outcome.ok r.1 (FS.writeFile r.2 r.1 (FData.bytes bs))

/-- Translation of _ensure_pdf_input: keys are tried in the order pdf_path,
pdf_url, pdf_base64; the value returned is the resolved path together with
the list of ephemeral paths to clean up. -/
def _ensure_pdf_input (env : Env) (job_input : JobInput) (fs : FS) :
    Outcome (String × List String) :=
  match job_input.pdf_path with
  | some p =>
    let candidate := expanduser env.home p
    if fs.pathExists candidate then Outcome.ok (candidate, []) fs
    else Outcome.err Err.input fs
  | none =>
    match job_input.pdf_url with
    | some url =>
      match _download_to_file env url fs with
      | Outcome.ok downloaded fs1 => Outcome.ok (downloaded, [downloaded]) fs1
      | Outcome.err e fs1 => Outcome.err e fs1
    | none =>
      match job_input.pdf_base64 with
      | some enc =>
        match _write_base64_file enc fs with
        | Outcome.ok decoded fs1 => Outcome.ok (decoded, [decoded]) fs1
        | Outcome.err e fs1 => Outcome.err e fs1
      | none => Outcome.err Err.input fs

/-- Translation of _build_command; a present but empty prompt string is
falsy in Python and adds no arguments. -/
def _build_command (env : Env) (pdf_path output_dir : String) (prompt : Option String) :
    List String :=
  let command := ["python", env.scriptPath, "--input", pdf_path, "--output", output_dir]
  match prompt with
  | some p => if p ≠ "" then command ++ ["--prompt", p] else command
  | none => command

/-- First argument following the given flag in an argument vector. -/
def argAfter (flag : String) : List String → Option String
  | [] => none
  | [_] => none
  | a :: b :: rest => if a = flag then some b else argAfter flag (b :: rest)

/-- Translation of _run_pipeline: the child process runs to completion,
writing its output files under the directory named after the output flag,
and its exit code and streams are captured (check is false: a non-zero
exit does not raise). -/
def _run_pipeline (env : Env) (command : List String) (fs : FS) : ProcResult × FS :=
  let out := (argAfter "--output" command).getD ""
  let fs1 := env.pipe.writes.foldl
    (fun a w => FS.writeFile a (out ++ "/" ++ w.1) (FData.bytes w.2)) fs
  ({ returncode := env.pipe.returncode, stdout := env.pipe.stdout,
     stderr := env.pipe.stderr }, fs1)

/-- Derivation of the artifact base stem from the resolved input's name,
as in _collect_artifacts: strip a trailing case-insensitive ".pdf",
otherwise use the pathlib stem. -/
def baseStem (pdf_path : String) : String :=
  let pdf_name := basename pdf_path
  if endsWithStr (lowerStr pdf_name) ".pdf" then dropRightStr pdf_name 4
  else pathStem pdf_name

/-- Translation of the inner _encode_text_file closure: absent file gives
none; otherwise read all bytes, return decoded UTF-8 text when at most
500000 bytes (raising UnicodeDecodeError on invalid data), else base64.
The existence check is specialised to regular files; a directory at an
artifact path (an IsADirectoryError in the source) is not modelled. -/
def _encode_text_file (fs : FS) (file_path : String) : Except Err (Option Value) :=
  match fs.getFile file_path with
  | none => Except.ok none
  | some d =>
    let text_bytes := d.toBytes
    if text_bytes.length ≤ 500000 then
      match utf8Decode text_bytes with
      | some cps => Except.ok (some (Value.text cps))
      | none => Except.error Err.unicodeDecode
    else Except.ok (some (Value.str (pyB64Encode text_bytes)))

/-- Entries of the archive produced by shutil.make_archive over a
directory: every file strictly below it, named relative to it. -/
def zipEntriesUnder (fs : FS) (dir : String) : List (String × Bytes) :=
  fs.files.filterMap (fun e =>
    match stripPrefixStr (dir ++ "/") e.1 with
    | some rel => some (rel, e.2.toBytes)
    | none => none)

/-- Translation of _collect_artifacts: primary markdown (with a missing
marker when absent), detection markdown (silently omitted when absent),
layout PDF (path plus inline base64), and the images directory archived
into a zip placed in the output directory. -/
def _collect_artifacts (fs : FS) (pdf_path output_dir : String) :
    Except Err (List (String × Value) × FS) :=
  let base_stem := baseStem pdf_path
  let markdown_path := output_dir ++ "/" ++ base_stem ++ ".mmd"
  let detail_markdown_path := output_dir ++ "/" ++ base_stem ++ "_det.mmd"
  let layout_pdf_path := output_dir ++ "/" ++ base_stem ++ "_layouts.pdf"
  let images_dir := output_dir ++ "/images"
  match _encode_text_file fs markdown_path with
  | Except.error e => Except.error e
  | Except.ok markdown_content =>
    match _encode_text_file fs detail_markdown_path with
    | Except.error e => Except.error e
    | Except.ok detection_content =>
      let a1 := match markdown_content with
        | some v => [("markdown", v), ("markdown_path", Value.str markdown_path)]
        | none => [("markdown_missing", Value.str markdown_path)]
      let a2 := match detection_content with
        | some v => [("detection_markdown", v),
                     ("detection_markdown_path", Value.str detail_markdown_path)]
        | none => []
      let a3 := if fs.pathExists layout_pdf_path then
          [("layout_pdf_path", Value.str layout_pdf_path),
           ("layout_pdf_base64", Value.str (pyB64Encode (fs.readBytes layout_pdf_path)))]
        else []
      if fs.pathExists images_dir then
        let archive_path := output_dir ++ "/" ++ base_stem ++ "_images.zip"
        Except.ok (a1 ++ a2 ++ a3 ++ [("images_archive_path", Value.str archive_path)],
          FS.writeFile fs archive_path (FData.zip (zipEntriesUnder fs images_dir)))
      else Except.ok (a1 ++ a2 ++ a3, fs)

/-- Output directory of a job: the output_dir key, or the default. -/
def jobOutputDir (env : Env) (event : Event) : String :=
  (event.input.output_dir).getD env.defaultOutputDir

/-- The four fields the handler always records before deciding status. -/
def baseResponse (command : List String) (process : ProcResult) : List (String × Value) :=
  [("command", Value.str (String.intercalate " " command)),
   ("return_code", Value.int process.returncode),
   ("stdout", Value.str (trimStr process.stdout)),
   ("stderr", Value.str (trimStr process.stderr))]

/-- One pass of the cleanup loop body: unlink a regular file, remove a
directory tree recursively, and ignore anything else; OS errors are
swallowed (the model's operations do not fail). -/
def cleanupOne (fs : FS) (p : String) : FS :=
  if fs.isFile p then (if fs.pathExists p then fs.unlink p else fs)
  else if fs.isDir p then fs.rmtree p
  else fs

/-- The cleanup loop over every recorded ephemeral path. -/
def cleanupAll (fs : FS) (ps : List String) : FS := ps.foldl cleanupOne fs

/-- Translation of handler: make the output directory, resolve the input,
run the pipeline, assemble the response (collecting artifacts only on a
zero exit code), then run the cleanup loop and return.  An exception from
input resolution or artifact collection propagates as an err outcome,
skipping everything after the raise, including the cleanup loop. -/
def handler (env : Env) (event : Event) (fs0 : FS) : Outcome (List (String × Value)) :=
  let job_input := event.input
  let output_dir := jobOutputDir env event
  let fs1 := FS.mkdirp fs0 output_dir
  match _ensure_pdf_input env job_input fs1 with
  | Outcome.err e fs => Outcome.err e fs
  | Outcome.ok (pdf_path, cleanup_paths) fs2 =>
    let command := _build_command env pdf_path output_dir job_input.prompt
    let pr := _run_pipeline env command fs2
    let response := baseResponse command pr.1
    if pr.1.returncode ≠ 0 then
      Outcome.ok (response ++ [("status", Value.str "failed")]) (cleanupAll pr.2 cleanup_paths)
    else
      match _collect_artifacts pr.2 pdf_path output_dir with
      | Except.error e => Outcome.err e pr.2
      | Except.ok (artifacts, fs4) =>
        Outcome.ok (response ++ [("status", Value.str "succeeded")] ++ artifacts)
          (cleanupAll fs4 cleanup_paths)

/-! ## Base64 codec lemmas -/

theorem b64Index_b64Chr : ∀ i, i < 64 → b64Index (b64Chr i) = some i := by decide

theorem b64Chr_ne_pad : ∀ i, i < 64 → b64Chr i ≠ '=' := by decide

theorem b64decode_b64encode (bs : Bytes) (hb : ∀ b ∈ bs, b < 256) :
    b64decodeChars (b64encodeChars bs) = some bs := by
  induction bs using b64encodeChars.induct with
  | case1 => rfl
  | case2 x =>
    have hx : x < 256 := hb x (by simp)
    rw [b64encodeChars, b64decodeChars, if_pos ⟨rfl, rfl, rfl⟩,
      b64Index_b64Chr _ (by omega), b64Index_b64Chr _ (by omega)]
    simp
    omega
  | case3 x y =>
    have hx : x < 256 := hb x (by simp)
    have hy : y < 256 := hb y (by simp)
    rw [b64encodeChars, b64decodeChars,
      if_neg (fun h => b64Chr_ne_pad (y % 16 * 4) (by omega) h.2.1),
      if_pos ⟨rfl, rfl⟩, b64Index_b64Chr _ (by omega), b64Index_b64Chr _ (by omega),
      b64Index_b64Chr _ (by omega)]
    simp
    constructor <;> omega
  | case4 x y z rest ih =>
    have hx : x < 256 := hb x (by simp)
    have hy : y < 256 := hb y (by simp)
    have hz : z < 256 := hb z (by simp)
    rw [b64encodeChars, b64decodeChars,
      if_neg (fun h => b64Chr_ne_pad (z % 64) (by omega) h.2.2),
      if_neg (fun h => b64Chr_ne_pad (z % 64) (by omega) h.2),
      b64Index_b64Chr _ (by omega), b64Index_b64Chr _ (by omega),
      b64Index_b64Chr _ (by omega), b64Index_b64Chr _ (by omega),
      ih (fun b hbm => hb b (by simp [hbm]))]
    simp
    refine ⟨by omega, by omega, by omega⟩

theorem b64encodeChars_all_kept (bs : Bytes) (hb : ∀ b ∈ bs, b < 256) :
    ∀ c ∈ b64encodeChars bs, ((b64Index c).isSome || c == '=') = true := by
  induction bs using b64encodeChars.induct with
  | case1 => simp [b64encodeChars]
  | case2 x =>
    have hx : x < 256 := hb x (by simp)
    intro c hc
    rw [b64encodeChars] at hc
    simp only [List.mem_cons, List.not_mem_nil, or_false] at hc
    rcases hc with h | h | h | h <;> subst h <;>
      first
        | (rw [b64Index_b64Chr _ (by omega)]; rfl)
        | rfl
  | case3 x y =>
    have hx : x < 256 := hb x (by simp)
    have hy : y < 256 := hb y (by simp)
    intro c hc
    rw [b64encodeChars] at hc
    simp only [List.mem_cons, List.not_mem_nil, or_false] at hc
    rcases hc with h | h | h | h <;> subst h <;>
      first
        | (rw [b64Index_b64Chr _ (by omega)]; rfl)
        | rfl
  | case4 x y z rest ih =>
    have hx : x < 256 := hb x (by simp)
    have hy : y < 256 := hb y (by simp)
    have hz : z < 256 := hb z (by simp)
    intro c hc
    rw [b64encodeChars] at hc
    simp only [List.mem_cons] at hc
    rcases hc with h | h | h | h | h
    · subst h; rw [b64Index_b64Chr _ (by omega)]; rfl
    · subst h; rw [b64Index_b64Chr _ (by omega)]; rfl
    · subst h; rw [b64Index_b64Chr _ (by omega)]; rfl
    · subst h; rw [b64Index_b64Chr _ (by omega)]; rfl
    · exact ih (fun b hbm => hb b (by simp [hbm])) c h

/-- Round trip of the modelled base64 codec on well-formed byte strings. -/
theorem pyB64_roundtrip (bs : Bytes) (hb : ∀ b ∈ bs, b < 256) :
    pyB64Decode (pyB64Encode bs) = some bs := by
  unfold pyB64Decode pyB64Encode
  rw [show (String.mk (b64encodeChars bs)).toList = b64encodeChars bs from rfl,
    List.filter_eq_self.mpr (b64encodeChars_all_kept bs hb),
    b64decode_b64encode bs hb]

/-! ## UTF-8 codec lemmas -/

theorem utf8DecodeF_roundtrip :
    ∀ fuel bs cs, utf8DecodeF fuel bs = some cs → utf8Encode cs = bs := by
  intro fuel
  induction fuel with
  | zero =>
    intro bs cs h
    cases bs with
    | nil =>
      rw [utf8DecodeF.eq_1] at h
      simp only [Option.some.injEq] at h
      subst h; rfl
    | cons b t => rw [utf8DecodeF.eq_2] at h; simp at h
  | succ n ih =>
    intro bs cs h
    cases bs with
    | nil =>
      rw [utf8DecodeF.eq_1] at h
      simp only [Option.some.injEq] at h
      subst h; rfl
    | cons b0 t =>
      cases t with
      | nil =>
        rw [utf8DecodeF.eq_4] at h
        split_ifs at h with h1
        · rw [utf8DecodeF.eq_1] at h
          simp only [Option.some.injEq] at h
          subst h
          rw [utf8Encode, utf8EncodeChar, if_pos h1, utf8Encode]
          rfl
      | cons b1 t1 =>
        rw [utf8DecodeF.eq_3] at h
        split_ifs at h with h1 h2 hg2 h3 h4
        · -- one-byte sequence
          cases hrec : utf8DecodeF n (b1 :: t1) with
          | none => rw [hrec] at h; simp at h
          | some cs1 =>
            rw [hrec] at h
            simp only [Option.some.injEq] at h
            subst h
            rw [utf8Encode, utf8EncodeChar, if_pos h1]
            simpa using ih (b1 :: t1) cs1 hrec
        · -- two-byte sequence, valid continuation
          cases hrec : utf8DecodeF n t1 with
          | none => rw [hrec] at h; simp at h
          | some cs1 =>
            rw [hrec] at h
            simp only [Option.some.injEq] at h
            subst h
            rw [utf8Encode, utf8EncodeChar, if_neg (by omega), if_pos (by omega)]
            have e1 : 192 + ((b0 - 192) * 64 + (b1 - 128)) / 64 = b0 := by omega
            have e2 : 128 + ((b0 - 192) * 64 + (b1 - 128)) % 64 = b1 := by omega
            rw [e1, e2]
            simpa using ih t1 cs1 hrec
        · -- three-byte sequence
          cases t1 with
          | nil => simp at h
          | cons b2 t2 =>
            simp only [] at h
            split_ifs at h with hg
            obtain ⟨hg1, hg2a, hg3, hg4⟩ := hg
            cases hrec : utf8DecodeF n t2 with
            | none => rw [hrec] at h; simp at h
            | some cs1 =>
              rw [hrec] at h
              simp only [Option.some.injEq] at h
              subst h
              have hlow : 2048 ≤ (b0 - 224) * 4096 + (b1 - 128) * 64 + (b2 - 128) := by
                rcases eq_or_ne b0 224 with he | he
                · have := hg3 he
                  omega
                · omega
              rw [utf8Encode, utf8EncodeChar, if_neg (by omega), if_neg (by omega),
                if_pos (by omega)]
              have e1 : 224 + ((b0 - 224) * 4096 + (b1 - 128) * 64 + (b2 - 128)) / 4096 = b0 := by
                omega
              have e2 : 128 + ((b0 - 224) * 4096 + (b1 - 128) * 64 + (b2 - 128)) / 64 % 64 = b1 := by
                omega
              have e3 : 128 + ((b0 - 224) * 4096 + (b1 - 128) * 64 + (b2 - 128)) % 64 = b2 := by
                omega
              rw [e1, e2, e3]
              simpa using ih t2 cs1 hrec
        · -- four-byte sequence
          cases t1 with
          | nil => simp at h
          | cons b2 t2 =>
            cases t2 with
            | nil => simp at h
            | cons b3 t3 =>
              simp only [] at h
              split_ifs at h with hg
              obtain ⟨hg1, hg2a, hg3a, hg4, hg5⟩ := hg
              cases hrec : utf8DecodeF n t3 with
              | none => rw [hrec] at h; simp at h
              | some cs1 =>
                rw [hrec] at h
                simp only [Option.some.injEq] at h
                subst h
                have hlow : 65536 ≤
                    (b0 - 240) * 262144 + (b1 - 128) * 4096 + (b2 - 128) * 64 + (b3 - 128) := by
                  rcases eq_or_ne b0 240 with he | he
                  · have := hg4 he
                    omega
                  · omega
                rw [utf8Encode, utf8EncodeChar, if_neg (by omega), if_neg (by omega),
                  if_neg (by omega)]
                have e1 : 240 + ((b0 - 240) * 262144 + (b1 - 128) * 4096 + (b2 - 128) * 64
                    + (b3 - 128)) / 262144 = b0 := by omega
                have e2 : 128 + ((b0 - 240) * 262144 + (b1 - 128) * 4096 + (b2 - 128) * 64
                    + (b3 - 128)) / 4096 % 64 = b1 := by omega
                have e3 : 128 + ((b0 - 240) * 262144 + (b1 - 128) * 4096 + (b2 - 128) * 64
                    + (b3 - 128)) / 64 % 64 = b2 := by omega
                have e4 : 128 + ((b0 - 240) * 262144 + (b1 - 128) * 4096 + (b2 - 128) * 64
                    + (b3 - 128)) % 64 = b3 := by omega
                rw [e1, e2, e3, e4]
                simpa using ih t3 cs1 hrec

/-- Round trip of the strict UTF-8 codec: re-encoding any successfully
decoded byte string reproduces it verbatim. -/
theorem utf8_roundtrip (bs : List Nat) (cs : List Nat) (h : utf8Decode bs = some cs) :
    utf8Encode cs = bs :=
  utf8DecodeF_roundtrip bs.length bs cs h

/-! ## Filesystem lemmas -/

theorem find?_filter_of_imp {α : Type} (l : List α) (p q : α → Bool)
    (h : ∀ x, p x = true → q x = true) : (l.filter q).find? p = l.find? p := by
  induction l with
  | nil => rfl
  | cons x xs ih =>
    by_cases hq : q x = true
    · rw [List.filter_cons_of_pos hq]
      by_cases hp : p x = true
      · rw [List.find?_cons_of_pos _ hp, List.find?_cons_of_pos _ hp]
      · rw [List.find?_cons_of_neg _ hp, List.find?_cons_of_neg _ hp, ih]
    · have hp : ¬ p x = true := fun hpx => hq (h x hpx)
      rw [List.filter_cons_of_neg hq, List.find?_cons_of_neg _ hp, ih]

theorem getFile_writeFile (fs : FS) (p q : String) (d : FData) :
    (fs.writeFile p d).getFile q = if q = p then some d else fs.getFile q := by
  by_cases h : q = p
  · subst h
    simp [FS.writeFile, FS.getFile]
  · rw [if_neg h]
    simp only [FS.writeFile, FS.getFile]
    rw [List.find?_cons_of_neg _ (by simpa using fun hpq => h hpq.symm)]
    rw [find?_filter_of_imp _ _ _ (fun x hx => by
      simp only [beq_iff_eq] at hx
      simp [hx, h])]

theorem getFile_unlink (fs : FS) (p q : String) :
    (fs.unlink p).getFile q = if q = p then none else fs.getFile q := by
  by_cases h : q = p
  · subst h
    rw [if_pos rfl]
    simp only [FS.unlink, FS.getFile, Option.map_eq_none']
    rw [List.find?_eq_none]
    intro x hx
    simp only [List.mem_filter, Bool.not_eq_eq_eq_not, Bool.not_true] at hx
    simp [hx.2]
  · rw [if_neg h]
    simp only [FS.unlink, FS.getFile]
    rw [find?_filter_of_imp _ _ _ (fun x hx => by
      simp only [beq_iff_eq] at hx
      simp [hx, h])]

theorem getFile_filter_none (fs : FS) (f : String × FData → Bool) (q : String)
    (h : fs.getFile q = none) :
    (({ fs with files := fs.files.filter f } : FS).getFile q) = none := by
  simp only [FS.getFile, Option.map_eq_none', List.find?_eq_none] at h ⊢
  intro x hx
  exact h x (List.mem_of_mem_filter hx)

theorem getFile_rmtree_none (fs : FS) (p q : String) (h : fs.getFile q = none) :
    (fs.rmtree p).getFile q = none := by
  unfold FS.rmtree
  exact getFile_filter_none fs _ q h

theorem isFile_iff_getFile_isSome (fs : FS) (p : String) :
    fs.isFile p = true ↔ (fs.getFile p).isSome = true := Iff.rfl

theorem getFile_cleanupOne_self (fs : FS) (q : String) :
    (cleanupOne fs q).getFile q = none := by
  unfold cleanupOne
  by_cases hf : fs.isFile q = true
  · rw [if_pos hf, if_pos (by simp [FS.pathExists, hf]), getFile_unlink, if_pos rfl]
  · have hq : fs.getFile q = none := by
      rcases h : fs.getFile q with _ | d
      · rfl
      · exact absurd (by simp [FS.isFile, h]) hf
    rw [if_neg hf]
    by_cases hd : fs.isDir q = true
    · rw [if_pos hd]
      exact getFile_rmtree_none fs q q hq
    · rw [if_neg hd]
      exact hq

theorem getFile_cleanupOne_none (fs : FS) (r q : String) (h : fs.getFile q = none) :
    (cleanupOne fs r).getFile q = none := by
  unfold cleanupOne
  by_cases hf : fs.isFile r = true
  · rw [if_pos hf]
    by_cases he : fs.pathExists r = true
    · rw [if_pos he, getFile_unlink]
      split <;> simp [h]
    · rw [if_neg he]; exact h
  · rw [if_neg hf]
    by_cases hd : fs.isDir r = true
    · rw [if_pos hd]
      exact getFile_rmtree_none fs r q h
    · rw [if_neg hd]; exact h

theorem getFile_cleanupAll_none (fs : FS) (ps : List String) (q : String)
    (h : fs.getFile q = none) : (cleanupAll fs ps).getFile q = none := by
  induction ps generalizing fs with
  | nil => exact h
  | cons a as ih =>
    unfold cleanupAll at ih ⊢
    rw [List.foldl_cons]
    exact ih (cleanupOne fs a) (getFile_cleanupOne_none fs a q h)

theorem getFile_cleanupAll_mem (fs : FS) (ps : List String) (q : String)
    (h : q ∈ ps) : (cleanupAll fs ps).getFile q = none := by
  induction ps generalizing fs with
  | nil => cases h
  | cons a as ih =>
    unfold cleanupAll at ih ⊢
    rw [List.foldl_cons]
    rcases List.mem_cons.mp h with he | hm
    · subst he
      exact getFile_cleanupAll_none (cleanupOne fs q) as q (getFile_cleanupOne_self fs q)
    · exact ih (cleanupOne fs a) hm

theorem isSome_getFile_writeFile (fs : FS) (p q : String) (d : FData)
    (h : (fs.getFile q).isSome = true) : ((fs.writeFile p d).getFile q).isSome = true := by
  rw [getFile_writeFile]
  split
  · rfl
  · exact h

theorem any_key_writeFile (fs : FS) (p : String) (d : FData) (pr : String → Bool)
    (h : fs.files.any (fun e => pr e.1) = true) :
    (fs.writeFile p d).files.any (fun e => pr e.1) = true := by
  simp only [List.any_eq_true] at h ⊢
  obtain ⟨x, hx, hpx⟩ := h
  by_cases he : x.1 = p
  · exact ⟨(p, d), by simp [FS.writeFile], by simpa [he] using hpx⟩
  · exact ⟨x, by simp [FS.writeFile, List.mem_filter, hx, he], hpx⟩

theorem isDir_writeFile (fs : FS) (p q : String) (d : FData)
    (h : fs.isDir q = true) : (fs.writeFile p d).isDir q = true := by
  simp only [FS.isDir, Bool.or_eq_true] at h ⊢
  rcases h with h | h
  · exact Or.inl (by simpa [FS.writeFile] using h)
  · exact Or.inr (any_key_writeFile fs p d (fun s => (stripPrefixStr (q ++ "/") s).isSome) h)

theorem pathExists_writeFile (fs : FS) (p q : String) (d : FData)
    (h : fs.pathExists q = true) : (fs.writeFile p d).pathExists q = true := by
  simp only [FS.pathExists, Bool.or_eq_true] at h ⊢
  rcases h with h | h
  · exact Or.inl (isSome_getFile_writeFile fs p q d h)
  · exact Or.inr (isDir_writeFile fs p q d h)

theorem isSome_getFile_foldWrites (ws : List (String × Bytes)) (out : String) (fs : FS)
    (q : String) (h : (fs.getFile q).isSome = true) :
    ((ws.foldl (fun a w => FS.writeFile a (out ++ "/" ++ w.1) (FData.bytes w.2)) fs).getFile
      q).isSome = true := by
  induction ws generalizing fs with
  | nil => exact h
  | cons w ws ih =>
    rw [List.foldl_cons]
    exact ih _ (isSome_getFile_writeFile fs _ q _ h)

theorem pathExists_foldWrites (ws : List (String × Bytes)) (out : String) (fs : FS)
    (q : String) (h : fs.pathExists q = true) :
    ((ws.foldl (fun a w => FS.writeFile a (out ++ "/" ++ w.1) (FData.bytes w.2)) fs).pathExists
      q) = true := by
  induction ws generalizing fs with
  | nil => exact h
  | cons w ws ih =>
    rw [List.foldl_cons]
    exact ih _ (pathExists_writeFile fs _ q _ h)

theorem isDir_mkdirp_mono (fs : FS) (p q : String) (h : fs.isDir q = true) :
    (fs.mkdirp p).isDir q = true := by
  unfold FS.mkdirp
  split
  · exact h
  · unfold FS.isDir at h ⊢
    simp only [Bool.or_eq_true] at h ⊢
    rcases h with hc | ha
    · left
      simp only [List.contains_cons, Bool.or_eq_true]
      right
      exact hc
    · right
      exact ha

theorem pathExists_mkdirp (fs : FS) (p q : String) (h : fs.pathExists q = true) :
    (fs.mkdirp p).pathExists q = true := by
  unfold FS.pathExists at h ⊢
  simp only [Bool.or_eq_true] at h ⊢
  rcases h with hf | hd
  · left
    have hsame : (fs.mkdirp p).isFile q = fs.isFile q := by
      unfold FS.mkdirp
      split
      · rfl
      · rfl
    rw [hsame]
    exact hf
  · right
    exact isDir_mkdirp_mono fs p q hd

theorem isSome_getFile_run_pipeline (env : Env) (command : List String) (fs : FS) (q : String)
    (h : (fs.getFile q).isSome = true) :
    (((_run_pipeline env command fs).2).getFile q).isSome = true := by
  unfold _run_pipeline
  exact isSome_getFile_foldWrites env.pipe.writes _ fs q h

theorem pathExists_run_pipeline (env : Env) (command : List String) (fs : FS) (q : String)
    (h : fs.pathExists q = true) :
    ((_run_pipeline env command fs).2).pathExists q = true := by
  unfold _run_pipeline
  exact pathExists_foldWrites env.pipe.writes _ fs q h

/-! ## Prefix-stripping lemmas for archive entries -/

theorem stripPre_append (pre r : List Char) : stripPre pre (pre ++ r) = some r := by
  induction pre with
  | nil => rfl
  | cons a pre ih => simpa [stripPre] using ih

theorem stripPre_eq_some (pre : List Char) :
    ∀ p r, stripPre pre p = some r → p = pre ++ r := by
  induction pre with
  | nil =>
    intro p r h
    simp only [stripPre, Option.some.injEq] at h
    simp [h]
  | cons a pre ih =>
    intro p r h
    cases p with
    | nil => simp [stripPre] at h
    | cons b p =>
      rw [stripPre] at h
      split_ifs at h with he
      subst he
      simpa using ih p r h

theorem stripPrefixStr_append (pre r : String) : stripPrefixStr pre (pre ++ r) = some r := by
  unfold stripPrefixStr
  rw [show (pre ++ r).toList = pre.toList ++ r.toList from rfl, stripPre_append]
  rfl

theorem stripPrefixStr_eq_some (pre p r : String) (h : stripPrefixStr pre p = some r) :
    p = pre ++ r := by
  unfold stripPrefixStr at h
  rcases hs : stripPre pre.toList p.toList with _ | l
  · rw [hs] at h; cases h
  · rw [hs] at h
    simp only [Option.map_some', Option.some.injEq] at h
    have hp : p.toList = pre.toList ++ l := stripPre_eq_some pre.toList p.toList l hs
    have : p = pre ++ String.mk l := by
      have h1 : String.mk p.toList = p := rfl
      have h2 : String.mk (pre.toList ++ l) = pre ++ String.mk l := rfl
      rw [← h1, hp, h2]
    rw [this, h]

theorem mem_zipEntriesUnder (fs : FS) (dir nm : String) (bs : Bytes) :
    (nm, bs) ∈ zipEntriesUnder fs dir ↔
      ∃ d, (dir ++ "/" ++ nm, d) ∈ fs.files ∧ d.toBytes = bs := by
  unfold zipEntriesUnder
  rw [List.mem_filterMap]
  constructor
  · rintro ⟨e, he, hf⟩
    rcases hstrip : stripPrefixStr (dir ++ "/") e.1 with _ | rel
    · rw [hstrip] at hf; cases hf
    · rw [hstrip] at hf
      simp only [Option.some.injEq, Prod.mk.injEq] at hf
      obtain ⟨hrel, hbs⟩ := hf
      refine ⟨e.2, ?_, hbs⟩
      have heq := stripPrefixStr_eq_some _ _ _ hstrip
      rw [show dir ++ "/" ++ nm = (dir ++ "/") ++ nm from rfl, ← hrel, ← heq]
      simpa using he
  · rintro ⟨d, hmem, hbs⟩
    refine ⟨(dir ++ "/" ++ nm, d), hmem, ?_⟩
    rw [show ((dir ++ "/" ++ nm, d) : String × FData).1 = (dir ++ "/") ++ nm from rfl,
      stripPrefixStr_append]
    simp [hbs]

/-! ## Handler control-flow lemmas -/

theorem run_pipeline_returncode (env : Env) (cmd : List String) (fs : FS) :
    (_run_pipeline env cmd fs).1.returncode = env.pipe.returncode := rfl

theorem run_pipeline_stdout (env : Env) (cmd : List String) (fs : FS) :
    (_run_pipeline env cmd fs).1.stdout = env.pipe.stdout := rfl

theorem run_pipeline_stderr (env : Env) (cmd : List String) (fs : FS) :
    (_run_pipeline env cmd fs).1.stderr = env.pipe.stderr := rfl

theorem handler_resolved_fail (env : Env) (event : Event) (fs0 : FS) (p : String)
    (c : List String) (fs2 : FS)
    (hres : _ensure_pdf_input env event.input (FS.mkdirp fs0 (jobOutputDir env event)) =
      Outcome.ok (p, c) fs2)
    (hrc : env.pipe.returncode ≠ 0) :
    handler env event fs0 =
      Outcome.ok
        (baseResponse (_build_command env p (jobOutputDir env event) event.input.prompt)
            (_run_pipeline env
              (_build_command env p (jobOutputDir env event) event.input.prompt) fs2).1
          ++ [("status", Value.str "failed")])
        (cleanupAll
          (_run_pipeline env
            (_build_command env p (jobOutputDir env event) event.input.prompt) fs2).2 c) := by
  simp only [handler]
  rw [hres]
  simp only [run_pipeline_returncode]
  rw [if_pos hrc]

theorem handler_resolved_succ (env : Env) (event : Event) (fs0 : FS) (p : String)
    (c : List String) (fs2 : FS) (arts : List (String × Value)) (fs4 : FS)
    (hres : _ensure_pdf_input env event.input (FS.mkdirp fs0 (jobOutputDir env event)) =
      Outcome.ok (p, c) fs2)
    (hrc : env.pipe.returncode = 0)
    (hcol : _collect_artifacts
        (_run_pipeline env
          (_build_command env p (jobOutputDir env event) event.input.prompt) fs2).2
        p (jobOutputDir env event) = Except.ok (arts, fs4)) :
    handler env event fs0 =
      Outcome.ok
        (baseResponse (_build_command env p (jobOutputDir env event) event.input.prompt)
            (_run_pipeline env
              (_build_command env p (jobOutputDir env event) event.input.prompt) fs2).1
          ++ [("status", Value.str "succeeded")] ++ arts)
        (cleanupAll fs4 c) := by
  simp only [handler]
  rw [hres]
  simp only [run_pipeline_returncode]
  rw [if_neg (fun h => h hrc), hcol]

theorem handler_resolved_raise (env : Env) (event : Event) (fs0 : FS) (p : String)
    (c : List String) (fs2 : FS) (e : Err)
    (hres : _ensure_pdf_input env event.input (FS.mkdirp fs0 (jobOutputDir env event)) =
      Outcome.ok (p, c) fs2)
    (hrc : env.pipe.returncode = 0)
    (hcol : _collect_artifacts
        (_run_pipeline env
          (_build_command env p (jobOutputDir env event) event.input.prompt) fs2).2
        p (jobOutputDir env event) = Except.error e) :
    handler env event fs0 =
      Outcome.err e
        (_run_pipeline env
          (_build_command env p (jobOutputDir env event) event.input.prompt) fs2).2 := by
  simp only [handler]
  rw [hres]
  simp only [run_pipeline_returncode]
  rw [if_neg (fun h => h hrc), hcol]

theorem handler_resolve_err (env : Env) (event : Event) (fs0 : FS) (e : Err) (fsE : FS)
    (hres : _ensure_pdf_input env event.input (FS.mkdirp fs0 (jobOutputDir env event)) =
      Outcome.err e fsE) :
    handler env event fs0 = Outcome.err e fsE := by
  simp only [handler]
  rw [hres]

/-! ## Concrete fixtures used by witnesses and counterexamples -/

/-- The empty filesystem. -/
def fsEmpty : FS := { files := [], dirs := [], tmpCounter := 0 }

/-- A concrete environment whose pipeline fails with exit code 1. -/
def envW : Env :=
  { defaultOutputDir := "/out", home := "/home/user",
    scriptPath := "/app/custom_run_dpsk_ocr_pdf.py",
    net := fun u => if u = "http://host/doc.pdf" then some [1, 2, 3] else none,
    pipe := { returncode := 1, stdout := " out ", stderr := "boom", writes := [] } }

/-- A job input carrying none of the three source keys. -/
def jiNone : JobInput := {}

/-! ## Claim theorems -/

/-- C2: input resolution checks the keys in the strict priority order
pdf_path, pdf_url, pdf_base64 and acts on the first key present (the
branch taken is independent of the lower-priority keys); when none of the
three keys is present it fails with an input error and returns the
filesystem unchanged, so no temporary file is created. -/
theorem C2_input_priority (env : Env) (ji : JobInput) (fs : FS) :
    (∀ p, ji.pdf_path = some p →
      _ensure_pdf_input env ji fs =
        (if fs.pathExists (expanduser env.home p) then
          Outcome.ok (expanduser env.home p, []) fs
        else Outcome.err Err.input fs))
    ∧ (∀ u, ji.pdf_path = none → ji.pdf_url = some u →
      _ensure_pdf_input env ji fs =
        (match _download_to_file env u fs with
          | Outcome.ok d fs1 => Outcome.ok (d, [d]) fs1
          | Outcome.err e fs1 => Outcome.err e fs1))
    ∧ (∀ b, ji.pdf_path = none → ji.pdf_url = none → ji.pdf_base64 = some b →
      _ensure_pdf_input env ji fs =
        (match _write_base64_file b fs with
          | Outcome.ok d fs1 => Outcome.ok (d, [d]) fs1
          | Outcome.err e fs1 => Outcome.err e fs1))
    ∧ (ji.pdf_path = none → ji.pdf_url = none → ji.pdf_base64 = none →
      _ensure_pdf_input env ji fs = Outcome.err Err.input fs) := by
  refine ⟨?_, ?_, ?_, ?_⟩
  · intro p hp
    unfold _ensure_pdf_input
    rw [hp]
  · intro u hp hu
    unfold _ensure_pdf_input
    rw [hp, hu]
  · intro b hp hu hb
    unfold _ensure_pdf_input
    rw [hp, hu, hb]
  · intro hp hu hb
    unfold _ensure_pdf_input
    rw [hp, hu, hb]

/-- Witness for C2 at a concrete input with no source keys. -/
theorem C2_input_priority_witness :
    _ensure_pdf_input envW jiNone fsEmpty = Outcome.err Err.input fsEmpty :=
  (C2_input_priority envW jiNone fsEmpty).2.2.2 rfl rfl rfl

/-- C6: the built argument vector always contains the input flag followed
by the resolved path and the output flag followed by the output directory,
and it contains the prompt flag exactly when a non-empty prompt string was
supplied (the flag-collision hypotheses rule out the resolved path itself
being the literal flag string). -/
theorem C6_command_shape (env : Env) (pdf out : String) (prompt : Option String)
    (hp : pdf ≠ "--prompt") (ho : out ≠ "--prompt") (hs : env.scriptPath ≠ "--prompt") :
    (∃ i, (_build_command env pdf out prompt).get? i = some "--input" ∧
      (_build_command env pdf out prompt).get? (i + 1) = some pdf)
    ∧ (∃ i, (_build_command env pdf out prompt).get? i = some "--output" ∧
      (_build_command env pdf out prompt).get? (i + 1) = some out)
    ∧ ("--prompt" ∈ _build_command env pdf out prompt ↔ ∃ s, prompt = some s ∧ s ≠ "") := by
  unfold _build_command
  rcases prompt with _ | p
  · dsimp only
    refine ⟨⟨2, rfl, rfl⟩, ⟨4, rfl, rfl⟩, ?_⟩
    constructor
    · intro hmem
      simp only [List.mem_cons, List.not_mem_nil, or_false] at hmem
      rcases hmem with h | h | h | h | h | h <;>
        first
          | exact absurd h.symm (by decide)
          | exact absurd h.symm hs
          | exact absurd h.symm hp
          | exact absurd h.symm ho
    · rintro ⟨s, hsome, _⟩
      cases hsome
  · dsimp only
    by_cases hpe : p = ""
    · subst hpe
      rw [if_neg (by simp)]
      refine ⟨⟨2, rfl, rfl⟩, ⟨4, rfl, rfl⟩, ?_⟩
      constructor
      · intro hmem
        simp only [List.mem_cons, List.not_mem_nil, or_false] at hmem
        rcases hmem with h | h | h | h | h | h <;>
          first
            | exact absurd h.symm (by decide)
            | exact absurd h.symm hs
            | exact absurd h.symm hp
            | exact absurd h.symm ho
      · rintro ⟨s, hsome, hne⟩
        simp only [Option.some.injEq] at hsome
        exact absurd hsome.symm hne
    · rw [if_pos hpe]
      refine ⟨⟨2, rfl, rfl⟩, ⟨4, rfl, rfl⟩, ?_⟩
      constructor
      · intro _
        exact ⟨p, rfl, hpe⟩
      · intro _
        simp
/-- Witness for C6 at a concrete command with a non-empty prompt. -/
theorem C6_command_shape_witness :
    (∃ i, (_build_command envW "/a/doc.pdf" "/out" (some "Describe")).get? i =
        some "--input" ∧
      (_build_command envW "/a/doc.pdf" "/out" (some "Describe")).get? (i + 1) =
        some "/a/doc.pdf")
    ∧ (∃ i, (_build_command envW "/a/doc.pdf" "/out" (some "Describe")).get? i =
        some "--output" ∧
      (_build_command envW "/a/doc.pdf" "/out" (some "Describe")).get? (i + 1) =
        some "/out")
    ∧ ("--prompt" ∈ _build_command envW "/a/doc.pdf" "/out" (some "Describe") ↔
      ∃ s, (some "Describe" : Option String) = some s ∧ s ≠ "") :=
  C6_command_shape envW "/a/doc.pdf" "/out" (some "Describe")
    (by decide) (by decide) (by decide)

/-- A job input whose base64 payload is malformed (one stray character). -/
def evB64Bad : Event := { input := { pdf_base64 := some "a" } }

/-- The filesystem state left behind by the failing base64 resolution: an
empty leaked temporary file. -/
def fsLeak : FS :=
  { files := [("/tmp/runpod0.pdf", FData.bytes [])], dirs := [], tmpCounter := 1 }

/-- Counterexample to C7 as stated: with the malformed base64 payload "a"
resolution fails before any process is spawned, but the filesystem is not
left unchanged — the empty temporary file created by mkstemp before
decoding persists. -/
theorem C7_counterexample :
    _ensure_pdf_input envW evB64Bad.input fsEmpty = Outcome.err Err.decode fsLeak
    ∧ fsLeak ≠ fsEmpty
    ∧ fsLeak.getFile "/tmp/runpod0.pdf" = some (FData.bytes []) := by
  refine ⟨by decide, by decide, by decide⟩

/-- C7 amended: for every malformed base64 payload, resolution fails with
a decode error before any process is spawned (the handler propagates the
error, so the pipeline never runs), but the filesystem is not unchanged:
the empty temporary file created by mkstemp before decoding remains on the
filesystem, unrecorded for cleanup. -/
theorem C7_amended_base64_failure (env : Env) (event : Event) (fs0 : FS) (enc : String)
    (hp : event.input.pdf_path = none) (hu : event.input.pdf_url = none)
    (hb : event.input.pdf_base64 = some enc)
    (hbad : pyB64Decode enc = none) :
    _ensure_pdf_input env event.input (FS.mkdirp fs0 (jobOutputDir env event)) =
      Outcome.err Err.decode ((FS.mkdirp fs0 (jobOutputDir env event)).mkstemp ".pdf").2
    ∧ handler env event fs0 =
      Outcome.err Err.decode ((FS.mkdirp fs0 (jobOutputDir env event)).mkstemp ".pdf").2
    ∧ (((FS.mkdirp fs0 (jobOutputDir env event)).mkstemp ".pdf").2).getFile
        ((FS.mkdirp fs0 (jobOutputDir env event)).mkstemp ".pdf").1 =
      some (FData.bytes []) := by
  have hres : _ensure_pdf_input env event.input (FS.mkdirp fs0 (jobOutputDir env event)) =
      Outcome.err Err.decode ((FS.mkdirp fs0 (jobOutputDir env event)).mkstemp ".pdf").2 := by
    unfold _ensure_pdf_input
    rw [hp, hu, hb]
    unfold _write_base64_file
    dsimp only
    rw [hbad]
  refine ⟨hres, handler_resolve_err env event fs0 Err.decode _ hres, ?_⟩
  simp [FS.mkstemp, FS.getFile]

/-- Witness for the amended C7 at the concrete malformed payload "a". -/
theorem C7_amended_base64_failure_witness :
    handler envW evB64Bad fsEmpty =
      Outcome.err Err.decode
        ((FS.mkdirp fsEmpty (jobOutputDir envW evB64Bad)).mkstemp ".pdf").2 :=
  (C7_amended_base64_failure envW evB64Bad fsEmpty "a" rfl rfl rfl (by decide)).2.1

/-! ## Artifact collection lemmas -/

theorem encode_text_file_cases (fs : FS) (path : String) :
    (∃ v, _encode_text_file fs path = Except.ok v)
    ∨ _encode_text_file fs path = Except.error Err.unicodeDecode := by
  unfold _encode_text_file
  rcases fs.getFile path with _ | d
  · exact Or.inl ⟨none, rfl⟩
  · dsimp only
    split_ifs with hlen
    · rcases hdec : utf8Decode d.toBytes with _ | cps
      · exact Or.inr rfl
      · exact Or.inl ⟨some (Value.text cps), rfl⟩
    · exact Or.inl ⟨some (Value.str (pyB64Encode d.toBytes)), rfl⟩

theorem collect_ok_shape (fs : FS) (p out : String) (arts : List (String × Value)) (fs' : FS)
    (h : _collect_artifacts fs p out = Except.ok (arts, fs')) :
    ∃ mdv detv,
      _encode_text_file fs (out ++ "/" ++ baseStem p ++ ".mmd") = Except.ok mdv ∧
      _encode_text_file fs (out ++ "/" ++ baseStem p ++ "_det.mmd") = Except.ok detv ∧
      arts = (match mdv with
          | some v => [("markdown", v),
              ("markdown_path", Value.str (out ++ "/" ++ baseStem p ++ ".mmd"))]
          | none => [("markdown_missing", Value.str (out ++ "/" ++ baseStem p ++ ".mmd"))])
        ++ (match detv with
          | some v => [("detection_markdown", v),
              ("detection_markdown_path", Value.str (out ++ "/" ++ baseStem p ++ "_det.mmd"))]
          | none => [])
        ++ (if fs.pathExists (out ++ "/" ++ baseStem p ++ "_layouts.pdf") then
              [("layout_pdf_path", Value.str (out ++ "/" ++ baseStem p ++ "_layouts.pdf")),
               ("layout_pdf_base64", Value.str (pyB64Encode
                 (fs.readBytes (out ++ "/" ++ baseStem p ++ "_layouts.pdf"))))]
            else [])
        ++ (if fs.pathExists (out ++ "/images") then
              [("images_archive_path", Value.str (out ++ "/" ++ baseStem p ++ "_images.zip"))]
            else [])
      ∧ fs' = (if fs.pathExists (out ++ "/images") then
            fs.writeFile (out ++ "/" ++ baseStem p ++ "_images.zip")
              (FData.zip (zipEntriesUnder fs (out ++ "/images")))
          else fs) := by
  unfold _collect_artifacts at h
  dsimp only at h
  rcases hmd : _encode_text_file fs (out ++ "/" ++ baseStem p ++ ".mmd") with e | mdv
  · rw [hmd] at h; cases h
  · rw [hmd] at h
    dsimp only at h
    rcases hdet : _encode_text_file fs (out ++ "/" ++ baseStem p ++ "_det.mmd") with e | detv
    · rw [hdet] at h; cases h
    · rw [hdet] at h
      dsimp only at h
      refine ⟨mdv, detv, rfl, rfl, ?_⟩
      by_cases himg : fs.pathExists (out ++ "/images") = true
      · rw [if_pos himg] at h
        simp only [Except.ok.injEq, Prod.mk.injEq] at h
        rw [if_pos himg, if_pos himg, ← h.1, ← h.2]
        exact ⟨rfl, rfl⟩
      · rw [if_neg himg] at h
        simp only [Except.ok.injEq, Prod.mk.injEq] at h
        rw [if_neg himg, if_neg himg, ← h.1, ← h.2]
        exact ⟨by simp, rfl⟩

theorem collect_error_of_bad (fs : FS) (p out : String)
    (hbad :
      (∃ bs, fs.getFile (out ++ "/" ++ baseStem p ++ ".mmd") = some (FData.bytes bs)
        ∧ bs.length ≤ 500000 ∧ utf8Decode bs = none)
      ∨ (∃ bs, fs.getFile (out ++ "/" ++ baseStem p ++ "_det.mmd") = some (FData.bytes bs)
        ∧ bs.length ≤ 500000 ∧ utf8Decode bs = none)) :
    _collect_artifacts fs p out = Except.error Err.unicodeDecode := by
  have herr : ∀ path bs, fs.getFile path = some (FData.bytes bs) → bs.length ≤ 500000 →
      utf8Decode bs = none → _encode_text_file fs path = Except.error Err.unicodeDecode := by
    intro path bs hget hlen hdec
    unfold _encode_text_file
    rw [hget]
    dsimp only [FData.toBytes]
    rw [if_pos hlen, hdec]
  unfold _collect_artifacts
  dsimp only
  rcases hbad with ⟨bs, hget, hlen, hdec⟩ | ⟨bs, hget, hlen, hdec⟩
  · rw [herr _ bs hget hlen hdec]
  · rcases encode_text_file_cases fs (out ++ "/" ++ baseStem p ++ ".mmd") with ⟨v, hok⟩ | he
    · rw [hok, herr _ bs hget hlen hdec]
    · rw [he]

theorem ensure_cleanup_isSome (env : Env) (ji : JobInput) (fs : FS) (p : String)
    (c : List String) (fs2 : FS)
    (h : _ensure_pdf_input env ji fs = Outcome.ok (p, c) fs2) :
    ∀ q ∈ c, (fs2.getFile q).isSome = true := by
  unfold _ensure_pdf_input at h
  rcases hpp : ji.pdf_path with _ | pp
  · rw [hpp] at h
    dsimp only at h
    rcases hu : ji.pdf_url with _ | u
    · rw [hu] at h
      dsimp only at h
      rcases hb : ji.pdf_base64 with _ | b
      · rw [hb] at h
        dsimp only at h
        cases h
      · rw [hb] at h
        dsimp only at h
        unfold _write_base64_file at h
        dsimp only at h
        rcases hdec : pyB64Decode b with _ | bs
        · rw [hdec] at h
          dsimp only at h
          cases h
        · rw [hdec] at h
          dsimp only at h
          cases h
          intro q hq
          simp only [List.mem_singleton] at hq
          subst hq
          rw [getFile_writeFile]
          simp
    · rw [hu] at h
      dsimp only at h
      unfold _download_to_file at h
      rcases hnet : env.net u with _ | content
      · rw [hnet] at h
        dsimp only at h
        cases h
      · rw [hnet] at h
        dsimp only at h
        cases h
        intro q hq
        simp only [List.mem_singleton] at hq
        subst hq
        rw [getFile_writeFile]
        simp
  · rw [hpp] at h
    dsimp only at h
    split_ifs at h
    cases h
    intro q hq
    simp at hq

/-! ## More concrete fixtures -/

/-- A job input selecting a URL download. -/
def evUrl : Event := { input := { pdf_url := some "http://host/doc.pdf" } }

/-- A filesystem holding one local input document. -/
def fsP : FS := { files := [("/docs/in.pdf", FData.bytes [1])], dirs := [], tmpCounter := 0 }

/-- A job input selecting a local path. -/
def evPath : Event := { input := { pdf_path := some "/docs/in.pdf" } }

/-- An environment whose pipeline succeeds but writes a markdown file that
is not valid UTF-8. -/
def envBad : Env :=
  { defaultOutputDir := "/out", home := "/home/user",
    scriptPath := "/app/custom_run_dpsk_ocr_pdf.py",
    net := fun _ => none,
    pipe := { returncode := 0, stdout := "", stderr := "",
              writes := [("runpod0.mmd", [255])] } }

/-- A job input carrying a valid base64 payload. -/
def evB64 : Event := { input := { pdf_base64 := some "aGk=" } }

/-- State after resolving the URL download of evUrl against fsEmpty. -/
def fs2C1 : FS :=
  { files := [("/tmp/runpod0.pdf", FData.bytes [1, 2, 3])], dirs := ["/out"], tmpCounter := 1 }

/-- Final filesystem of the evUrl job: temp file cleaned up. -/
def fsFC1 : FS := { files := [], dirs := ["/out"], tmpCounter := 1 }

/-- Response of the evUrl job under the failing pipeline. -/
def respC1 : List (String × Value) :=
  [("command", Value.str "python /app/custom_run_dpsk_ocr_pdf.py --input /tmp/runpod0.pdf --output /out"),
   ("return_code", Value.int 1),
   ("stdout", Value.str "out"),
   ("stderr", Value.str "boom"),
   ("status", Value.str "failed")]

/-- State after resolving the base64 payload of evB64 against fsEmpty. -/
def fs2W : FS :=
  { files := [("/tmp/runpod0.pdf", FData.bytes [104, 105])], dirs := ["/out"], tmpCounter := 1 }

/-- C1: whenever the handler call returns a response (rather than raising),
every path recorded as ephemeral during input resolution is absent from the
final filesystem — the cleanup loop ran after response assembly and removed
it — regardless of the pipeline's exit code. -/
theorem C1_ephemeral_cleanup (env : Env) (event : Event) (fs0 : FS) (p : String)
    (c : List String) (fs2 : FS) (resp : List (String × Value)) (fsF : FS)
    (hres : _ensure_pdf_input env event.input (FS.mkdirp fs0 (jobOutputDir env event)) =
      Outcome.ok (p, c) fs2)
    (hret : handler env event fs0 = Outcome.ok resp fsF) :
    ∀ q ∈ c, fsF.getFile q = none := by
  by_cases hrc : env.pipe.returncode = 0
  · rcases hcol : _collect_artifacts
        (_run_pipeline env
          (_build_command env p (jobOutputDir env event) event.input.prompt) fs2).2
        p (jobOutputDir env event) with e | af
    · rw [handler_resolved_raise env event fs0 p c fs2 e hres hrc hcol] at hret
      cases hret
    · rcases af with ⟨arts, fs4⟩
      rw [handler_resolved_succ env event fs0 p c fs2 arts fs4 hres hrc hcol] at hret
      cases hret
      intro q hq
      exact getFile_cleanupAll_mem fs4 c q hq
  · rw [handler_resolved_fail env event fs0 p c fs2 hres hrc] at hret
    cases hret
    intro q hq
    exact getFile_cleanupAll_mem _ c q hq

/-- Witness for C1: the downloaded temporary file of a concrete URL job is
gone from the final filesystem. -/
theorem C1_ephemeral_cleanup_witness : fsFC1.getFile "/tmp/runpod0.pdf" = none :=
  C1_ephemeral_cleanup envW evUrl fsEmpty "/tmp/runpod0.pdf" ["/tmp/runpod0.pdf"] fs2C1
    respC1 fsFC1 (by decide) (by decide) "/tmp/runpod0.pdf" (by decide)

/-- C3: with a resolved input, a non-zero pipeline exit code is never an
exception: the handler returns a response whose key set is exactly the five
base fields (no artifact fields), with status failed, carrying the exit code
and the trimmed output streams; and when the exit code is zero and artifact
collection returns, the status is succeeded and the artifact fields are
merged into the response, so collection runs exactly on zero exits. -/
theorem C3_pipeline_failure_captured (env : Env) (event : Event) (fs0 : FS) (p : String)
    (c : List String) (fs2 : FS)
    (hres : _ensure_pdf_input env event.input (FS.mkdirp fs0 (jobOutputDir env event)) =
      Outcome.ok (p, c) fs2) :
    (env.pipe.returncode ≠ 0 →
      handler env event fs0 =
        Outcome.ok
          (baseResponse (_build_command env p (jobOutputDir env event) event.input.prompt)
              (_run_pipeline env
                (_build_command env p (jobOutputDir env event) event.input.prompt) fs2).1
            ++ [("status", Value.str "failed")])
          (cleanupAll
            (_run_pipeline env
              (_build_command env p (jobOutputDir env event) event.input.prompt) fs2).2 c)
      ∧ (baseResponse (_build_command env p (jobOutputDir env event) event.input.prompt)
            (_run_pipeline env
              (_build_command env p (jobOutputDir env event) event.input.prompt) fs2).1
          ++ [("status", Value.str "failed")]).map Prod.fst =
          ["command", "return_code", "stdout", "stderr", "status"]
      ∧ ("return_code", Value.int env.pipe.returncode) ∈
          baseResponse (_build_command env p (jobOutputDir env event) event.input.prompt)
            (_run_pipeline env
              (_build_command env p (jobOutputDir env event) event.input.prompt) fs2).1
      ∧ ("stdout", Value.str (trimStr env.pipe.stdout)) ∈
          baseResponse (_build_command env p (jobOutputDir env event) event.input.prompt)
            (_run_pipeline env
              (_build_command env p (jobOutputDir env event) event.input.prompt) fs2).1
      ∧ ("stderr", Value.str (trimStr env.pipe.stderr)) ∈
          baseResponse (_build_command env p (jobOutputDir env event) event.input.prompt)
            (_run_pipeline env
              (_build_command env p (jobOutputDir env event) event.input.prompt) fs2).1)
    ∧ (env.pipe.returncode = 0 → ∀ arts fs4,
        _collect_artifacts
          (_run_pipeline env
            (_build_command env p (jobOutputDir env event) event.input.prompt) fs2).2
          p (jobOutputDir env event) = Except.ok (arts, fs4) →
        handler env event fs0 =
          Outcome.ok
            (baseResponse (_build_command env p (jobOutputDir env event) event.input.prompt)
                (_run_pipeline env
                  (_build_command env p (jobOutputDir env event) event.input.prompt) fs2).1
              ++ [("status", Value.str "succeeded")] ++ arts)
            (cleanupAll fs4 c)) := by
  constructor
  · intro hrc
    refine ⟨handler_resolved_fail env event fs0 p c fs2 hres hrc, rfl, ?_, ?_, ?_⟩
    · simp [baseResponse, run_pipeline_returncode]
    · simp [baseResponse, run_pipeline_stdout]
    · simp [baseResponse, run_pipeline_stderr]
  · intro hrc arts fs4 hcol
    exact handler_resolved_succ env event fs0 p c fs2 arts fs4 hres hrc hcol

/-- Witness for C3 at a concrete local-path job whose pipeline exits 1. -/
theorem C3_pipeline_failure_captured_witness :
    handler envW evPath fsP =
      Outcome.ok
        (baseResponse
            (_build_command envW "/docs/in.pdf" (jobOutputDir envW evPath)
              evPath.input.prompt)
            (_run_pipeline envW
              (_build_command envW "/docs/in.pdf" (jobOutputDir envW evPath)
                evPath.input.prompt)
              (FS.mkdirp fsP (jobOutputDir envW evPath))).1
          ++ [("status", Value.str "failed")])
        (cleanupAll
          (_run_pipeline envW
            (_build_command envW "/docs/in.pdf" (jobOutputDir envW evPath)
              evPath.input.prompt)
            (FS.mkdirp fsP (jobOutputDir envW evPath))).2 []) :=
  ((C3_pipeline_failure_captured envW evPath fsP "/docs/in.pdf" []
    (FS.mkdirp fsP (jobOutputDir envW evPath)) (by decide)).1 (by decide)).1

/-- C9: a job resolved via pdf_path records no ephemeral path (the cleanup
list is empty), and the file it names still exists on the filesystem when
the handler call returns, whatever the pipeline outcome. -/
theorem C9_pdf_path_preserved (env : Env) (event : Event) (fs0 : FS) (pp : String)
    (resp : List (String × Value)) (fsF : FS)
    (hpath : event.input.pdf_path = some pp)
    (hret : handler env event fs0 = Outcome.ok resp fsF) :
    _ensure_pdf_input env event.input (FS.mkdirp fs0 (jobOutputDir env event)) =
      Outcome.ok (expanduser env.home pp, [])
        (FS.mkdirp fs0 (jobOutputDir env event))
    ∧ fsF.pathExists (expanduser env.home pp) = true := by
  have hbranch : _ensure_pdf_input env event.input (FS.mkdirp fs0 (jobOutputDir env event)) =
      (if (FS.mkdirp fs0 (jobOutputDir env event)).pathExists (expanduser env.home pp) then
        Outcome.ok (expanduser env.home pp, []) (FS.mkdirp fs0 (jobOutputDir env event))
      else Outcome.err Err.input (FS.mkdirp fs0 (jobOutputDir env event))) := by
    unfold _ensure_pdf_input
    rw [hpath]
  by_cases hex : (FS.mkdirp fs0 (jobOutputDir env event)).pathExists
      (expanduser env.home pp) = true
  · rw [if_pos hex] at hbranch
    refine ⟨hbranch, ?_⟩
    by_cases hrc : env.pipe.returncode = 0
    · rcases hcol : _collect_artifacts
          (_run_pipeline env
            (_build_command env (expanduser env.home pp) (jobOutputDir env event)
              event.input.prompt)
            (FS.mkdirp fs0 (jobOutputDir env event))).2
          (expanduser env.home pp) (jobOutputDir env event) with e | af
      · rw [handler_resolved_raise env event fs0 (expanduser env.home pp) []
          (FS.mkdirp fs0 (jobOutputDir env event)) e hbranch hrc hcol] at hret
        cases hret
      · rcases af with ⟨arts, fs4⟩
        rw [handler_resolved_succ env event fs0 (expanduser env.home pp) []
          (FS.mkdirp fs0 (jobOutputDir env event)) arts fs4 hbranch hrc hcol] at hret
        cases hret
        have h2 := pathExists_run_pipeline env
          (_build_command env (expanduser env.home pp) (jobOutputDir env event)
            event.input.prompt)
          (FS.mkdirp fs0 (jobOutputDir env event)) (expanduser env.home pp) hex
        obtain ⟨mdv, detv, _, _, _, hfs4⟩ := collect_ok_shape _ _ _ arts fs4 hcol
        have h4 : fs4.pathExists (expanduser env.home pp) = true := by
          rw [hfs4]
          split
          · exact pathExists_writeFile _ _ _ _ h2
          · exact h2
        exact h4
    · rw [handler_resolved_fail env event fs0 (expanduser env.home pp) []
        (FS.mkdirp fs0 (jobOutputDir env event)) hbranch hrc] at hret
      cases hret
      exact pathExists_run_pipeline env
        (_build_command env (expanduser env.home pp) (jobOutputDir env event)
          event.input.prompt)
        (FS.mkdirp fs0 (jobOutputDir env event)) (expanduser env.home pp) hex
  · rw [if_neg hex] at hbranch
    rw [handler_resolve_err env event fs0 Err.input
      (FS.mkdirp fs0 (jobOutputDir env event)) hbranch] at hret
    cases hret

/-- Final filesystem of the evPath job: the input file is untouched. -/
def fsFC9 : FS :=
  { files := [("/docs/in.pdf", FData.bytes [1])], dirs := ["/out"], tmpCounter := 0 }

/-- Response of the evPath job under the failing pipeline. -/
def respC9 : List (String × Value) :=
  [("command", Value.str "python /app/custom_run_dpsk_ocr_pdf.py --input /docs/in.pdf --output /out"),
   ("return_code", Value.int 1),
   ("stdout", Value.str "out"),
   ("stderr", Value.str "boom"),
   ("status", Value.str "failed")]

/-- Witness for C9: after the concrete local-path job, the input file is
still present. -/
theorem C9_pdf_path_preserved_witness :
    fsFC9.pathExists (expanduser envW.home "/docs/in.pdf") = true :=
  (C9_pdf_path_preserved envW evPath fsP "/docs/in.pdf" respC9 fsFC9
    rfl (by decide)).2

/-- C10: if the pipeline exits zero and the primary or detection markdown
file exists with at most 500000 bytes that are not valid UTF-8, artifact
collection raises a decoding error that propagates out of the handler: no
structured response is returned, the cleanup loop never runs, and the
ephemeral temporary files are still present on the filesystem. -/
theorem C10_decode_error_skips_cleanup (env : Env) (event : Event) (fs0 : FS) (p : String)
    (c : List String) (fs2 : FS)
    (hres : _ensure_pdf_input env event.input (FS.mkdirp fs0 (jobOutputDir env event)) =
      Outcome.ok (p, c) fs2)
    (hrc : env.pipe.returncode = 0)
    (hbad :
      (∃ bs, ((_run_pipeline env
            (_build_command env p (jobOutputDir env event) event.input.prompt) fs2).2).getFile
          (jobOutputDir env event ++ "/" ++ baseStem p ++ ".mmd") = some (FData.bytes bs)
        ∧ bs.length ≤ 500000 ∧ utf8Decode bs = none)
      ∨ (∃ bs, ((_run_pipeline env
            (_build_command env p (jobOutputDir env event) event.input.prompt) fs2).2).getFile
          (jobOutputDir env event ++ "/" ++ baseStem p ++ "_det.mmd") = some (FData.bytes bs)
        ∧ bs.length ≤ 500000 ∧ utf8Decode bs = none)) :
    handler env event fs0 =
      Outcome.err Err.unicodeDecode
        (_run_pipeline env
          (_build_command env p (jobOutputDir env event) event.input.prompt) fs2).2
    ∧ ∀ q ∈ c,
      (((_run_pipeline env
          (_build_command env p (jobOutputDir env event) event.input.prompt) fs2).2).getFile
        q).isSome = true := by
  have hcol := collect_error_of_bad
    (_run_pipeline env
      (_build_command env p (jobOutputDir env event) event.input.prompt) fs2).2
    p (jobOutputDir env event) hbad
  refine ⟨handler_resolved_raise env event fs0 p c fs2 Err.unicodeDecode hres hrc hcol, ?_⟩
  intro q hq
  exact isSome_getFile_run_pipeline env _ fs2 q
    (ensure_cleanup_isSome env event.input _ p c fs2 hres q hq)

/-- Witness for C10: a concrete base64 job whose pipeline writes an invalid
markdown byte; the handler raises and the temporary file survives. -/
theorem C10_decode_error_skips_cleanup_witness :
    handler envBad evB64 fsEmpty =
      Outcome.err Err.unicodeDecode
        (_run_pipeline envBad
          (_build_command envBad "/tmp/runpod0.pdf" (jobOutputDir envBad evB64)
            evB64.input.prompt) fs2W).2 :=
  (C10_decode_error_skips_cleanup envBad evB64 fsEmpty "/tmp/runpod0.pdf"
    ["/tmp/runpod0.pdf"] fs2W (by decide) rfl
    (Or.inl ⟨[255], by decide, by decide, by decide⟩)).1

/-- C4: for a markdown artifact file of N bytes, the size-based encoding
round-trips in both branches: when N is at most 500000 the returned field
is the strict UTF-8 decoding of the file's bytes and re-encoding it yields
exactly those bytes; when N exceeds 500000 the returned field is the
base64 encoding of the bytes and decoding it yields exactly those bytes. -/
theorem C4_markdown_encoding_roundtrip (fs : FS) (path : String) (bs : Bytes)
    (hfile : fs.getFile path = some (FData.bytes bs)) (hb : ∀ b ∈ bs, b < 256) :
    (bs.length ≤ 500000 → ∀ t, _encode_text_file fs path = Except.ok (some (Value.text t)) →
      utf8Decode bs = some t ∧ utf8Encode t = bs)
    ∧ (500000 < bs.length →
      _encode_text_file fs path = Except.ok (some (Value.str (pyB64Encode bs)))
      ∧ pyB64Decode (pyB64Encode bs) = some bs) := by
  constructor
  · intro hlen t ht
    unfold _encode_text_file at ht
    rw [hfile] at ht
    dsimp only [FData.toBytes] at ht
    rw [if_pos hlen] at ht
    rcases hdec : utf8Decode bs with _ | cps
    · rw [hdec] at ht; cases ht
    · rw [hdec] at ht
      simp only [Except.ok.injEq, Option.some.injEq, Value.text.injEq] at ht
      constructor
      · rw [ht]
      · rw [← ht]
        exact utf8_roundtrip bs cps hdec
  · intro hlen
    constructor
    · unfold _encode_text_file
      rw [hfile]
      dsimp only [FData.toBytes]
      rw [if_neg (by omega)]
    · exact pyB64_roundtrip bs hb

/-- A filesystem holding a small, valid-UTF-8 markdown artifact. -/
def fsMd : FS :=
  { files := [("/out/doc.mmd", FData.bytes [104, 105])], dirs := [], tmpCounter := 0 }

/-- Witness for C4 at a concrete two-byte markdown file. -/
theorem C4_markdown_encoding_roundtrip_witness :
    utf8Decode [104, 105] = some [104, 105] ∧ utf8Encode [104, 105] = [104, 105] :=
  (C4_markdown_encoding_roundtrip fsMd "/out/doc.mmd" [104, 105] (by decide)
    (by decide)).1 (by decide) [104, 105] (by rfl)

/-- C5: after a successful run in which the primary markdown file is
absent, the response contains the distinct missing marker with the
expected path and omits the markdown field (and its path field) entirely;
the detection markdown, when also absent, is omitted with no marker of any
kind. -/
theorem C5_markdown_missing_marker (env : Env) (event : Event) (fs0 : FS) (p : String)
    (c : List String) (fs2 : FS) (arts : List (String × Value)) (fs4 : FS)
    (resp : List (String × Value)) (fsF : FS)
    (hres : _ensure_pdf_input env event.input (FS.mkdirp fs0 (jobOutputDir env event)) =
      Outcome.ok (p, c) fs2)
    (hrc : env.pipe.returncode = 0)
    (hcol : _collect_artifacts
        (_run_pipeline env
          (_build_command env p (jobOutputDir env event) event.input.prompt) fs2).2
        p (jobOutputDir env event) = Except.ok (arts, fs4))
    (hmd : ((_run_pipeline env
        (_build_command env p (jobOutputDir env event) event.input.prompt) fs2).2).getFile
        (jobOutputDir env event ++ "/" ++ baseStem p ++ ".mmd") = none)
    (hret : handler env event fs0 = Outcome.ok resp fsF) :
    ("markdown_missing",
        Value.str (jobOutputDir env event ++ "/" ++ baseStem p ++ ".mmd")) ∈ resp
    ∧ (∀ v, ("markdown", v) ∉ resp)
    ∧ (∀ v, ("markdown_path", v) ∉ resp)
    ∧ (((_run_pipeline env
          (_build_command env p (jobOutputDir env event) event.input.prompt) fs2).2).getFile
          (jobOutputDir env event ++ "/" ++ baseStem p ++ "_det.mmd") = none →
        (∀ v, ("detection_markdown", v) ∉ resp)
        ∧ (∀ v, ("detection_markdown_path", v) ∉ resp)
        ∧ (∀ v, ("detection_markdown_missing", v) ∉ resp)) := by
  rw [handler_resolved_succ env event fs0 p c fs2 arts fs4 hres hrc hcol] at hret
  cases hret
  obtain ⟨mdv, detv, hemd, hedet, harts, hfs4⟩ := collect_ok_shape _ _ _ arts fs4 hcol
  have hmdv : mdv = none := by
    unfold _encode_text_file at hemd
    rw [hmd] at hemd
    simp only [Except.ok.injEq] at hemd
    exact hemd.symm
  subst hmdv
  refine ⟨?_, ?_, ?_, ?_⟩
  · rw [harts]
    simp [baseResponse]
  · intro v hv
    rw [harts] at hv
    rcases detv with _ | dv <;>
      split_ifs at hv <;>
      simp [baseResponse] at hv
  · intro v hv
    rw [harts] at hv
    rcases detv with _ | dv <;>
      split_ifs at hv <;>
      simp [baseResponse] at hv
  · intro hdet
    have hdetv : detv = none := by
      unfold _encode_text_file at hedet
      rw [hdet] at hedet
      simp only [Except.ok.injEq] at hedet
      exact hedet.symm
    subst hdetv
    refine ⟨?_, ?_, ?_⟩ <;>
      · intro v hv
        rw [harts] at hv
        split_ifs at hv <;>
          simp [baseResponse] at hv

/-- An environment whose pipeline succeeds but writes nothing. -/
def envOk : Env :=
  { defaultOutputDir := "/out", home := "/home/user",
    scriptPath := "/app/custom_run_dpsk_ocr_pdf.py",
    net := fun _ => none,
    pipe := { returncode := 0, stdout := "", stderr := "", writes := [] } }

/-- Response of the evB64 job under envOk: succeeded with a missing
markdown marker. -/
def respC5 : List (String × Value) :=
  [("command", Value.str "python /app/custom_run_dpsk_ocr_pdf.py --input /tmp/runpod0.pdf --output /out"),
   ("return_code", Value.int 0),
   ("stdout", Value.str ""),
   ("stderr", Value.str ""),
   ("status", Value.str "succeeded"),
   ("markdown_missing", Value.str "/out/runpod0.mmd")]

/-- Final filesystem of the evB64 job under envOk. -/
def fsFC5 : FS := { files := [], dirs := ["/out"], tmpCounter := 1 }

/-- Witness for C5 at a concrete successful job with no markdown output. -/
theorem C5_markdown_missing_marker_witness :
    ("markdown_missing", Value.str "/out/runpod0.mmd") ∈ respC5 :=
  (C5_markdown_missing_marker envOk evB64 fsEmpty "/tmp/runpod0.pdf" ["/tmp/runpod0.pdf"]
    fs2W [("markdown_missing", Value.str "/out/runpod0.mmd")] fs2W respC5 fsFC5
    (by decide) rfl (by rfl) (by decide) (by decide)).1

/-- A filesystem with one rendered image below the images directory of
output directory "/data/out". -/
def fsImg : FS :=
  { files := [("/data/out/images/page.png", FData.bytes [1])], dirs := [], tmpCounter := 0 }

/-- Artifacts of the concrete images run. -/
def artsC8 : List (String × Value) :=
  [("markdown_missing", Value.str "/data/out/doc.mmd"),
   ("images_archive_path", Value.str "/data/out/doc_images.zip")]

/-- Filesystem after the concrete images run: the archive lives inside the
output directory. -/
def fsFC8 : FS :=
  { files := [("/data/out/doc_images.zip", FData.zip [("page.png", [1])]),
              ("/data/out/images/page.png", FData.bytes [1])],
    dirs := [], tmpCounter := 0 }

/-- Counterexample to C8 as stated: for a concrete run with an images
directory, the produced zip is created inside output_dir (at
/data/out/doc_images.zip) and no file exists at the location alongside
output_dir (/data/doc_images.zip), so "placed alongside output_dir" fails;
packaging itself is lossless. -/
theorem C8_counterexample :
    _collect_artifacts fsImg "/x/doc.pdf" "/data/out" = Except.ok (artsC8, fsFC8)
    ∧ fsFC8.getFile "/data/out/doc_images.zip" = some (FData.zip [("page.png", [1])])
    ∧ fsFC8.getFile "/data/doc_images.zip" = none
    ∧ ("images_archive_path", Value.str "/data/out/doc_images.zip") ∈ artsC8 :=
  ⟨by rfl, by decide, by decide, by decide⟩

/-- C8 amended: after a successful run in which the images directory
exists, its full contents are archived recursively into a zip named
stem_images.zip placed inside output_dir (not alongside it); the archive's
entry set equals the file set under the images directory (lossless
packaging), and the response reports only the archive's path — the
artifact vocabulary has no field inlining the archive's bytes. -/
theorem C8_amended_images_archive (fs : FS) (p out : String)
    (arts : List (String × Value)) (fs' : FS)
    (hcol : _collect_artifacts fs p out = Except.ok (arts, fs'))
    (himg : fs.pathExists (out ++ "/images") = true) :
    fs'.getFile (out ++ "/" ++ baseStem p ++ "_images.zip") =
      some (FData.zip (zipEntriesUnder fs (out ++ "/images")))
    ∧ (∀ nm bs, (nm, bs) ∈ zipEntriesUnder fs (out ++ "/images") ↔
        ∃ d, (out ++ "/images" ++ "/" ++ nm, d) ∈ fs.files ∧ d.toBytes = bs)
    ∧ ("images_archive_path", Value.str (out ++ "/" ++ baseStem p ++ "_images.zip")) ∈ arts
    ∧ (∀ k v, (k, v) ∈ arts → k = "markdown" ∨ k = "markdown_path" ∨ k = "markdown_missing"
        ∨ k = "detection_markdown" ∨ k = "detection_markdown_path" ∨ k = "layout_pdf_path"
        ∨ k = "layout_pdf_base64" ∨ k = "images_archive_path") := by
  obtain ⟨mdv, detv, hemd, hedet, harts, hfs'⟩ := collect_ok_shape _ _ _ arts fs' hcol
  rw [if_pos himg] at hfs'
  refine ⟨?_, ?_, ?_, ?_⟩
  · rw [hfs', getFile_writeFile, if_pos rfl]
  · intro nm bs
    exact mem_zipEntriesUnder fs (out ++ "/images") nm bs
  · rw [harts, if_pos himg]
    simp
  · intro k v hkv
    rw [harts] at hkv
    rcases mdv with _ | mv <;> rcases detv with _ | dv <;>
      split_ifs at hkv <;>
      · simp only [List.mem_append, List.mem_cons, List.not_mem_nil, or_false, false_or,
          Prod.mk.injEq] at hkv
        tauto

/-- Witness for the amended C8 at the concrete images run. -/
theorem C8_amended_images_archive_witness :
    fsFC8.getFile ("/data/out" ++ "/" ++ baseStem "/x/doc.pdf" ++ "_images.zip") =
      some (FData.zip (zipEntriesUnder fsImg ("/data/out" ++ "/images"))) :=
  (C8_amended_images_archive fsImg "/x/doc.pdf" "/data/out" artsC8 fsFC8
    (by rfl) (by decide)).1
